import Mathlib

/-!
Shallow embedding of the `jsv2/jetstream` pull-consumer delivery engine
(`consumer.go`): the `fetch` batch primitive, the `Next` one-shot
operation, the `Stream` fetch/dispatch loops, and the teardown logic.

Modelling conventions:
* messages are abstracted to `Nat` identifiers;
* Go `time.Duration` values are `Int` nanoseconds;
* Go channels are lists (a send appends, a receive takes the head);
* the scheduler's choice of `select` arm, and the classification of
  broker replies, are explicit event traces supplied as input;
* lock/unlock, subscribe/publish, and subscription mutation are
  recorded in an explicit action trace so that "no network call" and
  "performed under the lock" are statable.
-/

namespace Jsv2

/-- Error values of the delivery engine. `noMessages` is
`ErrNoMessages`, `timeout` is `nats.ErrTimeout`, `noHeartbeat` is
`ErrNoHeartbeat`, `invalidArg` is `nats.ErrInvalidArg`, `consumerBusy`
is `ErrConsumerHasActiveSubscription`, `handlerRequired` is
`ErrHandlerRequired`, `badSubscription` is `nats.ErrBadSubscription`;
`other n` stands for an arbitrary transport-layer error. -/
inductive Err where
  | noMessages
  | timeout
  | noHeartbeat
  | invalidArg
  | consumerBusy
  | handlerRequired
  | badSubscription
  | other (code : Nat)
  deriving DecidableEq, Repr

/-- The `pullRequest` struct (consumer.go lines 69-75). Durations are
`Int` nanoseconds; `Batch`, `MaxBytes` are Go ints, modelled as `Int`. -/
structure PullRequest where
  expires : Int := 0
  batch : Int := 0
  maxBytes : Int := 0
  noWait : Bool := false
  heartbeat : Int := 0
  deriving DecidableEq, Repr

/-- One nanosecond count per millisecond. -/
def nsPerMs : Int := 1000000

/-- One nanosecond count per second. -/
def nsPerSec : Int := 1000000000

/-- The JSON field names actually emitted for a `pullRequest`: every
field carries an `omitempty` tag (consumer.go lines 69-75), so a field
equal to its zero value is omitted from the serialized request. -/
def pullRequestJsonFields (req : PullRequest) : List String :=
  (if req.expires = 0 then [] else ["expires"]) ++
  (if req.batch = 0 then [] else ["batch"]) ++
  (if req.maxBytes = 0 then [] else ["max_bytes"]) ++
  (if req.noWait = false then [] else ["no_wait"]) ++
  (if req.heartbeat = 0 then [] else ["idle_heartbeat"])

/-- The mutable consumer handle state shared by all operations:
`subscription` (a `Nat` identifier or `none`, mirroring the
`*nats.Subscription` field), the `isStreaming` atomic flag, and
`hbGen`, a counter bumped each time `p.heartbeat = make(chan struct)`
re-creates the heartbeat channel (so "the heartbeat channel field was
not mutated" is statable). -/
structure ConsState where
  subscription : Option Nat := none
  isStreaming : Bool := false
  hbGen : Nat := 0
  deriving DecidableEq, Repr

/-- Primitive observable actions of the engine, recorded in traces:
mutex operations, network operations, subscription mutation, the
atomic streaming-flag clear, and context cancellation. -/
inductive Action where
  | lock
  | unlock
  | subscribe
  | publish
  | unsub
  | setSubNil
  | clearFlag
  | cancelCtx
  deriving DecidableEq, Repr

/-- A classified reply received inside `fetch`'s receive loop
(consumer.go lines 278-295). `userMsg m` is a reply `checkMsg`
classifies as a user message; `statusMsg` is a status/idle-heartbeat
marker (`checkMsg` returns not-a-user-message with no error);
`recvErr e` is an error from `NextMsgWithContext` (e.g. a context
timeout); `checkErr e` is an error from `checkMsg` (e.g.
`ErrNoMessages` on a no-messages status). `checkMsg` itself is not
under `src/`; replies are supplied pre-classified, following the
spec's reply classification. -/
inductive FetchEvent where
  | userMsg (m : Nat)
  | statusMsg
  | recvErr (e : Err)
  | checkErr (e : Err)
  deriving DecidableEq, Repr

instance {α : Type} [DecidableEq α] : DecidableEq (Except Err α) := fun a b =>
  match a, b with
  | .ok x, .ok y =>
      if h : x = y then isTrue (by rw [h]) else
        isFalse fun hh => h (by injection hh)
  | .ok _, .error _ => isFalse fun h => Except.noConfusion h
  | .error _, .ok _ => isFalse fun h => Except.noConfusion h
  | .error e, .error f =>
      if h : e = f then isTrue (by rw [h]) else
        isFalse fun hh => h (by injection hh)

/-- Result of `fetch`'s receive loop: terminal result, the user
messages sent to the `target` sink channel in order, and the number of
signals sent on the heartbeat channel. -/
structure FetchResult where
  result : Except Err Unit
  sink : List Nat
  hbTicks : Nat
  deriving DecidableEq, Repr

/-- The receive loop of `fetch` (consumer.go lines 277-296): receive
replies until `count` reaches the batch size, forwarding user messages
to the sink and raising a heartbeat signal for each status marker when
`req.Heartbeat != 0` (`hbI` is the request's heartbeat interval).
Running out of supplied replies models the bounding context expiring,
which surfaces as `nats.ErrTimeout` from `NextMsgWithContext`. -/
def fetchLoop (hbI : Int) : List FetchEvent → Nat → FetchResult
  | _, 0 => ⟨.ok (), [], 0⟩
  | [], _ + 1 => ⟨.error .timeout, [], 0⟩
  | .userMsg m :: evs, n + 1 =>
      ⟨(fetchLoop hbI evs n).result, m :: (fetchLoop hbI evs n).sink,
        (fetchLoop hbI evs n).hbTicks⟩
  | .statusMsg :: evs, n + 1 =>
      ⟨(fetchLoop hbI evs (n + 1)).result, (fetchLoop hbI evs (n + 1)).sink,
        (if hbI = 0 then 0 else 1) + (fetchLoop hbI evs (n + 1)).hbTicks⟩
  | .recvErr e :: _, _ + 1 => ⟨.error e, [], 0⟩
  | .checkErr e :: _, _ + 1 => ⟨.error e, [], 0⟩

/-- Environment of one `fetch` call: the outcome the transport gives
to `SubscribeSync` (a fresh subscription id or an error), the outcome
of `PublishRequest` (`none` = success), and the classified replies
that arrive on the subscription. -/
structure FetchEnv where
  subscribeResult : Except Err Nat
  publishErr : Option Err
  events : List FetchEvent
  deriving DecidableEq, Repr

/-- Full outcome of one `fetch` call: the handle state after the call,
the returned error (if any), the user messages delivered to the sink
in order, the heartbeat signals raised, and the action trace. -/
structure FetchOut where
  state : ConsState
  result : Except Err Unit
  sink : List Nat
  hbTicks : Nat
  actions : List Action
  deriving DecidableEq, Repr

/-- The tail of `fetch` after the subscription is in place
(consumer.go lines 268-296): marshal the request (never fails for this
struct), publish it, then run the receive loop. `acts` is the action
trace accumulated so far; the deferred `Unlock` closes it. -/
def fetchPublish (st : ConsState) (env : FetchEnv) (req : PullRequest)
    (acts : List Action) : FetchOut :=
  match env.publishErr with
  | some e => ⟨st, .error e, [], 0, acts ++ [.publish, .unlock]⟩
  | none =>
      ⟨st, (fetchLoop req.heartbeat env.events req.batch.toNat).result,
        (fetchLoop req.heartbeat env.events req.batch.toNat).sink,
        (fetchLoop req.heartbeat env.events req.batch.toNat).hbTicks,
        acts ++ [.publish, .unlock]⟩

/-- `pullConsumer.fetch` (consumer.go lines 252-297): reject a batch
below 1 with `InvalidArgument` before any network interaction; then,
under the lock, lazily create the subscription, publish the pull
request, and drain replies. -/
def fetch (st : ConsState) (env : FetchEnv) (req : PullRequest) : FetchOut :=
  if req.batch < 1 then
    ⟨st, .error .invalidArg, [], 0, []⟩
  else
    match st.subscription, env.subscribeResult with
    | none, .error e => ⟨st, .error e, [], 0, [.lock, .subscribe, .unlock]⟩
    | none, .ok s =>
        fetchPublish { st with subscription := some s } env req [.lock, .subscribe]
    | some _, _ => fetchPublish st env req [.lock]

/-- The user messages among a classified reply list, in order. -/
def userMsgsOf (evs : List FetchEvent) : List Nat :=
  evs.filterMap fun e => match e with | .userMsg m => some m | _ => none

theorem fetchLoop_sink (hbI : Int) (evs : List FetchEvent) : ∀ n : Nat, ∃ k,
    (fetchLoop hbI evs n).sink = userMsgsOf (List.take k evs) ∧
    ((fetchLoop hbI evs n).result = .ok () →
      (fetchLoop hbI evs n).sink.length = n) := by
  induction evs with
  | nil =>
      intro n
      cases n with
      | zero => exact ⟨0, by simp [fetchLoop, userMsgsOf]⟩
      | succ n => exact ⟨0, by simp [fetchLoop, userMsgsOf]⟩
  | cons e evs ih =>
      intro n
      cases n with
      | zero => exact ⟨0, by simp [fetchLoop, userMsgsOf]⟩
      | succ n =>
          cases e with
          | userMsg m =>
              obtain ⟨k, hk, hlen⟩ := ih n
              refine ⟨k + 1, ?_, ?_⟩
              · simp [fetchLoop, userMsgsOf, List.take_succ_cons,
                  List.filterMap_cons]
                exact hk
              · intro hok
                have : (fetchLoop hbI evs n).result = .ok () := by
                  simpa [fetchLoop] using hok
                have hl := hlen this
                simp [fetchLoop, hl]
          | statusMsg =>
              obtain ⟨k, hk, hlen⟩ := ih (n + 1)
              refine ⟨k + 1, ?_, ?_⟩
              · simp [fetchLoop, userMsgsOf, List.take_succ_cons,
                  List.filterMap_cons]
                exact hk
              · intro hok
                have : (fetchLoop hbI evs (n + 1)).result = .ok () := by
                  simpa [fetchLoop] using hok
                have hl := hlen this
                simp [fetchLoop, hl]
          | recvErr e' => exact ⟨0, by simp [fetchLoop, userMsgsOf]⟩
          | checkErr e' => exact ⟨0, by simp [fetchLoop, userMsgsOf]⟩

/-- Claim C1: for every pull request with `batch ≥ 1`, if `fetch`
returns success it has delivered exactly `batch` user messages to its
sink channel, in the order they were received from the broker (the
sink equals the user messages of the consumed prefix of the reply
stream); if `fetch` returns an error, every user message received
before the error is already in the sink — no received message is
silently dropped. -/
theorem C1_fetch_delivery (st : ConsState) (env : FetchEnv) (req : PullRequest)
    (h : 1 ≤ req.batch) : ∃ k,
    (fetch st env req).sink = userMsgsOf (List.take k env.events) ∧
    ((fetch st env req).result = .ok () →
      ((fetch st env req).sink.length : Int) = req.batch) := by
  have hlt : ¬ req.batch < 1 := not_lt.mpr h
  have hcast : ((req.batch.toNat : Int)) = req.batch :=
    Int.toNat_of_nonneg (by omega)
  unfold fetch
  rw [if_neg hlt]
  rcases hsub : st.subscription with _ | s
  · rcases hsr : env.subscribeResult with e | s'
    · exact ⟨0, by simp [userMsgsOf]⟩
    · unfold fetchPublish
      rcases hpe : env.publishErr with _ | e
      · obtain ⟨k, hk, hlen⟩ := fetchLoop_sink req.heartbeat env.events req.batch.toNat
        refine ⟨k, by simpa using hk, ?_⟩
        intro hok
        have := hlen (by simpa using hok)
        simp [this, hcast]
      · exact ⟨0, by simp [userMsgsOf]⟩
  · unfold fetchPublish
    rcases hpe : env.publishErr with _ | e
    · obtain ⟨k, hk, hlen⟩ := fetchLoop_sink req.heartbeat env.events req.batch.toNat
      refine ⟨k, by simpa using hk, ?_⟩
      intro hok
      have := hlen (by simpa using hok)
      simp [this, hcast]
    · exact ⟨0, by simp [userMsgsOf]⟩

theorem C1_fetch_delivery_witness :
    (1 : Int) ≤ ({ batch := 2 } : PullRequest).batch ∧ ∃ k,
    (fetch ⟨none, false, 0⟩ ⟨.ok 1, none, [.userMsg 5, .statusMsg, .userMsg 7]⟩
      { batch := 2 }).sink =
      userMsgsOf (List.take k [.userMsg 5, .statusMsg, .userMsg 7]) ∧
    ((fetch ⟨none, false, 0⟩ ⟨.ok 1, none, [.userMsg 5, .statusMsg, .userMsg 7]⟩
      { batch := 2 }).result = .ok () →
      (((fetch ⟨none, false, 0⟩ ⟨.ok 1, none, [.userMsg 5, .statusMsg, .userMsg 7]⟩
        { batch := 2 }).sink.length : Int) = ({ batch := 2 } : PullRequest).batch)) :=
  ⟨by decide, C1_fetch_delivery _ _ _ (by decide)⟩

/-- Claim C5: for every pull request with `batch = 0` or negative,
`fetch` fails with `InvalidArgument` before any network interaction:
the action trace is empty (no subscription created, nothing
published) and the consumer state is returned unchanged. -/
theorem C5_invalid_batch (st : ConsState) (env : FetchEnv) (req : PullRequest)
    (h : req.batch < 1) :
    fetch st env req = ⟨st, .error .invalidArg, [], 0, []⟩ := by
  unfold fetch
  rw [if_pos h]

theorem C5_invalid_batch_witness :
    ({ } : PullRequest).batch < 1 ∧
    fetch ⟨some 4, false, 2⟩ ⟨.ok 1, none, [.userMsg 5]⟩ { } =
      ⟨⟨some 4, false, 2⟩, .error .invalidArg, [], 0, []⟩ :=
  ⟨by decide, C5_invalid_batch _ _ _ (by decide)⟩

/-- An event observed by `Next`'s wait loop (consumer.go lines
125-154): a message arriving on `msgChan`, the background fetch
goroutine finishing with error `e`, a heartbeat signal, or the
`2 * heartbeat` staleness timer firing. A trace lists the `select`
arms in the order the scheduler resolves them. -/
inductive NextEvent where
  | msgArrived (m : Nat)
  | fetchErr (e : Err)
  | hbTick
  | hbTimeout
  deriving DecidableEq, Repr

/-- The value the background fetch goroutine puts first on the `errs`
channel (consumer.go lines 115-123): a `NoMessages` or timeout fetch
error is replaced by `ErrNoMessages`; any other error is sent
unchanged. -/
def nextFetchSend (e : Err) : Err :=
  if e = .noMessages ∨ e = .timeout then .noMessages else e

/-- The action trace of `Next`'s heartbeat-loss teardown (consumer.go
lines 137-140): lock, unsubscribe, nil out the subscription, unlock.
`Next` does not touch the streaming flag. -/
def nextTeardownActions : List Action := [.lock, .unsub, .setSubNil, .unlock]

/-- The state effect of `Next`'s heartbeat-loss teardown (consumer.go
lines 137-140): the subscription is nilled out; the streaming flag and
heartbeat channel are untouched. -/
def nextTeardownState (st : ConsState) : ConsState :=
  { st with subscription := none }

/-- `Next`'s wait loop (consumer.go lines 125-154) over a scheduler
trace. `hbI` is `req.Heartbeat`; the heartbeat-timer arms exist only
when it is nonzero. Returns the state after the loop, the result
(`none` while still waiting), and the action trace. A received
message returns `(msg, nil)`; a received error returns `(nil, nil)`
when it is `ErrNoMessages`, else `(nil, err)`; a heartbeat tick
continues; the staleness timer tears the subscription down and
returns `(nil, ErrNoHeartbeat)`. -/
def nextWait (hbI : Int) (st : ConsState) :
    List NextEvent → ConsState × Option (Option Nat × Option Err) × List Action
  | [] => (st, none, [])
  | .msgArrived m :: _ => (st, some (some m, none), [])
  | .fetchErr e :: _ =>
      if nextFetchSend e = .noMessages then (st, some (none, none), [])
      else (st, some (none, some (nextFetchSend e)), [])
  | .hbTick :: rest => nextWait hbI st rest
  | .hbTimeout :: rest =>
      if hbI = 0 then nextWait hbI st rest
      else (nextTeardownState st, some (none, some .noHeartbeat),
        nextTeardownActions)

/-- The effective timeout of a `Next` call (consumer.go lines 89-93):
the caller context's remaining deadline when present, else 30 seconds. -/
def nextTimeout (deadline : Option Int) : Int :=
  match deadline with
  | none => 30 * nsPerSec
  | some d => d

/-- The pull request `Next` builds before options are applied
(consumer.go lines 94-100): `batch = 1`, and `expires` set to the
effective timeout minus a 10ms margin only when the timeout is at
least 20ms, else left at its zero value. -/
def nextBuildReq (deadline : Option Int) : PullRequest :=
  if 20 * nsPerMs ≤ nextTimeout deadline then
    { batch := 1, expires := nextTimeout deadline - 10 * nsPerMs }
  else
    { batch := 1 }

/-- Left-to-right application of caller-supplied option functions to
the pull request (consumer.go lines 101-106 and 176-180); the first
option error aborts. -/
def applyOpts : List (PullRequest → Except Err PullRequest) → PullRequest →
    Except Err PullRequest
  | [], r => .ok r
  | f :: fs, r =>
      match f r with
      | .error e => .error e
      | .ok r2 => applyOpts fs r2

/-- Environment of one `Next` call: the caller context's remaining
deadline, the option functions, and the scheduler trace of the wait
loop. -/
structure NextEnv where
  deadline : Option Int
  opts : List (PullRequest → Except Err PullRequest)
  events : List NextEvent

/-- `pullConsumer.Next` (consumer.go lines 83-155): reject when the
streaming flag is set, before any other work and without mutating any
field; otherwise build the request, apply options (an option error
also returns before any network work), re-create the heartbeat
channel (`hbGen` bump), and enter the wait loop. -/
def nextOp (st : ConsState) (env : NextEnv) :
    ConsState × Option (Option Nat × Option Err) × List Action :=
  if st.isStreaming then (st, some (none, some .consumerBusy), [])
  else
    match applyOpts env.opts (nextBuildReq env.deadline) with
    | .error e => (st, some (none, some e), [])
    | .ok req => nextWait req.heartbeat { st with hbGen := st.hbGen + 1 } env.events

/-- Environment of one `Stream` call's synchronous part: whether the
handler argument is non-nil, and the option functions. -/
structure StreamEnv where
  handlerPresent : Bool
  opts : List (PullRequest → Except Err PullRequest)

/-- The default pull request of `Stream` (consumer.go lines 171-175):
`batch = 100`, `expires = 30s`. -/
def streamDefaultReq : PullRequest := { batch := 100, expires := 30 * nsPerSec }

/-- The synchronous part of `pullConsumer.Stream` (consumer.go lines
164-185): the atomic streaming-flag check rejects first with
`ConsumerBusy`, then a nil handler rejects with `HandlerRequired`,
then options apply to the default request; on success the streaming
flag is set, the heartbeat channel re-created, and the request
returned (the two goroutines are modelled separately). -/
def streamStart (st : ConsState) (env : StreamEnv) :
    ConsState × Except Err PullRequest × List Action :=
  if st.isStreaming then (st, .error .consumerBusy, [])
  else if env.handlerPresent = false then (st, .error .handlerRequired, [])
  else
    match applyOpts env.opts streamDefaultReq with
    | .error e => (st, .error e, [])
    | .ok req =>
        ({ st with isStreaming := true, hbGen := st.hbGen + 1 }, .ok req, [])

/-- Claim C2: whenever the streaming flag is set, both `Next` and
`Stream` return `ConsumerBusy` immediately: the returned state is the
input state unchanged (subscription, flag and heartbeat-channel
generation untouched) and the action trace is empty (no network
call). -/
theorem C2_busy_reject (sub : Option Nat) (g : Nat) (envN : NextEnv)
    (envS : StreamEnv) :
    nextOp ⟨sub, true, g⟩ envN =
      (⟨sub, true, g⟩, some (none, some .consumerBusy), []) ∧
    streamStart ⟨sub, true, g⟩ envS =
      (⟨sub, true, g⟩, .error .consumerBusy, []) := by
  exact ⟨rfl, rfl⟩

theorem nextBuildReq_heartbeat (d : Option Int) :
    (nextBuildReq d).heartbeat = 0 := by
  unfold nextBuildReq
  split <;> rfl

/-- Claim C4: a `Next` call whose underlying fetch ends with a
`NoMessages` or timeout error returns `(nil, nil)` rather than an
error; any other fetch error is returned to the caller unchanged.
Stated both for a full `Next` call (no options) and for the wait loop
at any heartbeat setting and state. -/
theorem C4_next_error_translation (sub : Option Nat) (g : Nat) (d : Option Int)
    (rest : List NextEvent) (e : Err) :
    (nextOp ⟨sub, false, g⟩ ⟨d, [], .fetchErr e :: rest⟩).2.1 =
      some (if e = .noMessages ∨ e = .timeout then (none, none)
        else ((none : Option Nat), some e)) ∧
    (∀ (hbI : Int) (st : ConsState),
      nextWait hbI st (.fetchErr e :: rest) =
        (st, some (if e = .noMessages ∨ e = .timeout
          then ((none : Option Nat), (none : Option Err))
          else (none, some e)), [])) := by
  have hsend : ∀ (hbI : Int) (st : ConsState),
      nextWait hbI st (.fetchErr e :: rest) =
        (st, some (if e = .noMessages ∨ e = .timeout
          then ((none : Option Nat), (none : Option Err))
          else (none, some e)), []) := by
    intro hbI st
    by_cases h : e = .noMessages ∨ e = .timeout
    · simp [nextWait, nextFetchSend, h]
    · have he : ¬ e = .noMessages := fun hh => h (Or.inl hh)
      have ht : ¬ e = .timeout := fun hh => h (Or.inr hh)
      simp [nextWait, nextFetchSend, h, he, ht]
  refine ⟨?_, hsend⟩
  have : nextOp ⟨sub, false, g⟩ ⟨d, [], .fetchErr e :: rest⟩ =
      nextWait (nextBuildReq d).heartbeat ⟨sub, false, g + 1⟩
        (.fetchErr e :: rest) := by
    simp [nextOp, applyOpts]
  rw [this, hsend]

/-- Claim C8 counterexample: with 15ms remaining on the caller's
deadline, the code leaves `request.expires` at 0; the claim's
"expires = timeout minus 10ms" would require 5ms. -/
theorem C8_margin_cex :
    (nextBuildReq (some (15 * nsPerMs))).expires ≠
      nextTimeout (some (15 * nsPerMs)) - 10 * nsPerMs := by decide

/-- Claim C8 (amended): the effective timeout equals the caller
context's remaining deadline, or 30 seconds when it has no deadline;
`request.expires` is set to the timeout minus the 10ms margin only
when the timeout is at least 20ms, and is otherwise left at 0. -/
theorem C8_timeout_amended (d : Option Int) (t : Int) :
    nextTimeout none = 30 * nsPerSec ∧
    nextTimeout (some t) = t ∧
    (nextBuildReq d).batch = 1 ∧
    (nextBuildReq d).expires =
      (if 20 * nsPerMs ≤ nextTimeout d then nextTimeout d - 10 * nsPerMs
        else 0) := by
  refine ⟨rfl, rfl, ?_, ?_⟩
  · unfold nextBuildReq; split <;> rfl
  · unfold nextBuildReq; split <;> rfl

/-- Claim C10: when the effective timeout is below 20ms the pull
request keeps `expires = 0`, and the `omitempty` tag omits the
`expires` field from the serialized request; the 10ms margin applies
only when the timeout is at least 20ms, in which case the resulting
expiry is at least 10ms — never negative or near zero. -/
theorem C10_small_timeout_expiry (d : Option Int) :
    (nextTimeout d < 20 * nsPerMs ∧ (nextBuildReq d).expires = 0 ∧
      "expires" ∉ pullRequestJsonFields (nextBuildReq d)) ∨
    (20 * nsPerMs ≤ nextTimeout d ∧
      (nextBuildReq d).expires = nextTimeout d - 10 * nsPerMs ∧
      10 * nsPerMs ≤ (nextBuildReq d).expires) := by
  rcases lt_or_le (nextTimeout d) (20 * nsPerMs) with h | h
  · left
    refine ⟨h, ?_, ?_⟩
    · unfold nextBuildReq; rw [if_neg (not_le.mpr h)]
    · unfold nextBuildReq; rw [if_neg (not_le.mpr h)]; decide
  · right
    refine ⟨h, ?_, ?_⟩
    · unfold nextBuildReq; rw [if_pos h]
    · unfold nextBuildReq; rw [if_pos h]
      show 10 * nsPerMs ≤ nextTimeout d - 10 * nsPerMs
      unfold nsPerMs at h ⊢
      omega

/-- An event observed by `Stream`'s dispatch loop (consumer.go lines
203-245): a message from the pending buffer, an error from the error
channel, a heartbeat signal, the `2 * heartbeat` staleness timer, or
cancellation of the shared context. -/
inductive StreamEvent where
  | msg (m : Nat)
  | errEv (e : Err)
  | hbTick
  | hbTimeout
  | ctxDone
  deriving DecidableEq, Repr

/-- Outcome of a dispatch-loop run: the handle state when (and if) the
loop returns, the handler invocations in order, whether the loop
called `cancel()` on the shared context, and the action trace. -/
structure DispatchOut where
  state : ConsState
  calls : List (Option Nat × Option Err)
  cancelled : Bool
  actions : List Action
  deriving DecidableEq, Repr

/-- The state effect of `Stream`'s teardown (consumer.go lines
215-219, 222-226, 237-241): the subscription is nilled out and the
streaming flag cleared. -/
def streamTeardownState (st : ConsState) : ConsState :=
  { st with subscription := none, isStreaming := false }

/-- The action trace of `Stream`'s teardown: lock, unsubscribe, nil
out the subscription, unlock, and only then the atomic streaming-flag
clear (`atomic.StoreUint32` runs after `p.Unlock()` at each of the
three sites). -/
def streamTeardownActions : List Action :=
  [.lock, .unsub, .setSubNil, .unlock, .clearFlag]

/-- `Stream`'s dispatch loop (consumer.go lines 203-245) over a
scheduler trace. `hbI` is `req.Heartbeat`; the heartbeat arms exist
only when it is nonzero. Messages and errors are handed to the
handler and the loop continues; on staleness timeout it invokes
`handler(nil, NoHeartbeat)`, cancels the shared context and tears
down; on context cancellation it tears down without a handler call. -/
def dispatchLoop (hbI : Int) (st : ConsState) : List StreamEvent → DispatchOut
  | [] => ⟨st, [], false, []⟩
  | .msg m :: rest =>
      ⟨(dispatchLoop hbI st rest).state,
        (some m, none) :: (dispatchLoop hbI st rest).calls,
        (dispatchLoop hbI st rest).cancelled, (dispatchLoop hbI st rest).actions⟩
  | .errEv e :: rest =>
      ⟨(dispatchLoop hbI st rest).state,
        (none, some e) :: (dispatchLoop hbI st rest).calls,
        (dispatchLoop hbI st rest).cancelled, (dispatchLoop hbI st rest).actions⟩
  | .hbTick :: rest => dispatchLoop hbI st rest
  | .hbTimeout :: rest =>
      if hbI = 0 then dispatchLoop hbI st rest
      else ⟨streamTeardownState st, [(none, some .noHeartbeat)], true,
        .cancelCtx :: streamTeardownActions⟩
  | .ctxDone :: _ => ⟨streamTeardownState st, [], false, streamTeardownActions⟩

/-- Claim C3: a `Stream` with a nonzero heartbeat interval whose
dispatch loop sees neither a heartbeat signal nor a message within
`2 * heartbeat` (the staleness timer fires first) invokes the handler
exactly once with `(nil, NoHeartbeat)`, cancels the shared context,
tears down the subscription, clears the streaming flag, and a
subsequent `Stream` or `Next` on the same handle is not rejected as
busy. -/
theorem C3_heartbeat_loss (hbI : Int) (h : hbI ≠ 0) (st : ConsState)
    (rest : List StreamEvent) :
    dispatchLoop hbI st (.hbTimeout :: rest) =
      ⟨streamTeardownState st, [(none, some .noHeartbeat)], true,
        .cancelCtx :: streamTeardownActions⟩ ∧
    (streamTeardownState st).isStreaming = false ∧
    (streamTeardownState st).subscription = none ∧
    (streamStart (streamTeardownState st) ⟨true, []⟩).2.1 =
      .ok streamDefaultReq ∧
    (nextOp (streamTeardownState st) ⟨none, [], []⟩).2.1 = none := by
  refine ⟨?_, rfl, rfl, ?_, ?_⟩
  · simp [dispatchLoop, h]
  · simp [streamStart, streamTeardownState, applyOpts]
  · simp [nextOp, streamTeardownState, applyOpts, nextWait]

theorem C3_heartbeat_loss_witness :
    (1 : Int) ≠ 0 ∧
    (dispatchLoop 1 ⟨some 3, true, 1⟩ [.hbTimeout] =
      ⟨streamTeardownState ⟨some 3, true, 1⟩, [(none, some .noHeartbeat)], true,
        .cancelCtx :: streamTeardownActions⟩ ∧
    (streamTeardownState ⟨some 3, true, 1⟩).isStreaming = false ∧
    (streamTeardownState ⟨some 3, true, 1⟩).subscription = none ∧
    (streamStart (streamTeardownState ⟨some 3, true, 1⟩) ⟨true, []⟩).2.1 =
      .ok streamDefaultReq ∧
    (nextOp (streamTeardownState ⟨some 3, true, 1⟩) ⟨none, [], []⟩).2.1 = none) :=
  ⟨by decide, C3_heartbeat_loss 1 (by decide) ⟨some 3, true, 1⟩ []⟩

/-- Modelled from the spec: `Subscription.Unsubscribe` of the
underlying connection is code of this repository that is not under
`src/`. Per the spec, a teardown on an already-nil subscription is a
no-op that neither fails nor panics: the call merely reports a
`BadSubscription` error, which every teardown site ignores, and
changes no state. -/
def unsubscribeEffect : Option Nat → Option Err
  | none => some .badSubscription
  | some _ => none

/-- Scan of an action trace checking that every subscription-teardown
action (and, when `checkFlag` is set, also the streaming-flag clear)
occurs while the mutex is held (`d` tracks the lock depth). -/
def lockDepthOk (checkFlag : Bool) : List Action → Nat → Bool
  | [], _ => true
  | .lock :: rest, d => lockDepthOk checkFlag rest (d + 1)
  | .unlock :: rest, d => lockDepthOk checkFlag rest (d - 1)
  | .unsub :: rest, d => decide (0 < d) && lockDepthOk checkFlag rest d
  | .setSubNil :: rest, d => decide (0 < d) && lockDepthOk checkFlag rest d
  | .clearFlag :: rest, d =>
      (if checkFlag then decide (0 < d) else true) && lockDepthOk checkFlag rest d
  | _ :: rest, d => lockDepthOk checkFlag rest d

/-- Whether an action trace performs the full teardown triple
(unsubscribe, nil-out, flag clear) entirely under the lock — the
claim's reading of "teardown is always performed while holding the
handle's lock". -/
def teardownUnderLock (acts : List Action) : Bool := lockDepthOk true acts 0

/-- Whether an action trace performs the subscription part of teardown
(unsubscribe, nil-out) under the lock. -/
def subTeardownUnderLock (acts : List Action) : Bool := lockDepthOk false acts 0

/-- Claim C6 counterexample: at the concrete context-cancellation
teardown of `Stream`, the action trace clears the streaming flag
after the lock is released, so the teardown triple is not performed
entirely while holding the lock. -/
theorem C6_lock_cex :
    teardownUnderLock (dispatchLoop 1 ⟨some 1, true, 0⟩ [.ctxDone]).actions =
      false := by decide

/-- Claim C6 (amended): teardown is idempotent for every trigger — a
second teardown on an already-nil subscription changes nothing beyond
the already-cleared flag and merely produces an ignored
`BadSubscription` error from unsubscribe (no failure, no panic); the
unsubscribe and subscription-nil-out are performed under the lock at
every trigger, but `Stream`'s streaming-flag clear runs after the
lock is released, and `Next`'s heartbeat teardown does not touch the
flag. -/
theorem C6_teardown_amended (st : ConsState) :
    streamTeardownState (streamTeardownState st) = streamTeardownState st ∧
    nextTeardownState (nextTeardownState st) = nextTeardownState st ∧
    unsubscribeEffect (streamTeardownState st).subscription =
      some .badSubscription ∧
    streamTeardownState { st with subscription := none } =
      { st with subscription := none, isStreaming := false } ∧
    nextWait 1 st [.hbTimeout] =
      (nextTeardownState st, some (none, some .noHeartbeat),
        nextTeardownActions) ∧
    dispatchLoop 0 st [.ctxDone] =
      ⟨streamTeardownState st, [], false, streamTeardownActions⟩ ∧
    subTeardownUnderLock streamTeardownActions = true ∧
    subTeardownUnderLock nextTeardownActions = true ∧
    subTeardownUnderLock (dispatchLoop 1 st [.hbTimeout]).actions = true ∧
    teardownUnderLock streamTeardownActions = false ∧
    teardownUnderLock nextTeardownActions = true := by
  refine ⟨rfl, rfl, rfl, rfl, ?_, rfl, by decide, by decide, ?_, by decide,
    by decide⟩
  · simp [nextWait]
  · rfl

/-- The capacity of `Stream`'s pending buffer (consumer.go line 182:
`make(chan *jetStreamMsg, 2*req.Batch)`). -/
def pendingCapacity (batch : Int) : Int := 2 * batch

/-- Combined state of `Stream`'s fetch loop and pending buffer:
`buffer` is the channel content (head is next to dispatch), `inflight`
the user messages the currently running fetch has yet to send,
`dispatched` the messages already handed to the handler, and `fetched`
all messages sent into the buffer so far, in order. -/
structure BufState where
  buffer : List Nat
  inflight : List Nat
  dispatched : List Nat
  fetched : List Nat
  deriving DecidableEq, Repr

/-- Interleaved primitive events of the fetch loop and the dispatch
loop around the pending buffer: `startFetch msgs` begins one fetch
that will deliver `msgs` (allowed only when no fetch is running, the
buffer holds fewer than `batch` messages — the guard at consumer.go
line 192 — and one fetch delivers at most `batch` messages);
`deliver` is one channel send by the running fetch; `dispatch` is one
channel receive by the dispatch loop. -/
inductive BufEvent where
  | startFetch (msgs : List Nat)
  | deliver
  | dispatch
  deriving DecidableEq, Repr

/-- One step of the fetch-loop/dispatch-loop system around the
pending buffer (consumer.go lines 186-201 and 203-245); guarded
events that cannot fire leave the state unchanged. -/
def bufStep (batch : Nat) (st : BufState) : BufEvent → BufState
  | .startFetch msgs =>
      if st.inflight = [] ∧ st.buffer.length < batch ∧ msgs.length ≤ batch then
        { st with inflight := msgs }
      else st
  | .deliver =>
      match st.inflight with
      | [] => st
      | m :: rest => ⟨st.buffer ++ [m], rest, st.dispatched, st.fetched ++ [m]⟩
  | .dispatch =>
      match st.buffer with
      | [] => st
      | m :: rest => ⟨rest, st.inflight, st.dispatched ++ [m], st.fetched⟩

/-- Run of the buffer system over an event schedule. -/
def bufRun (batch : Nat) (st : BufState) : List BufEvent → BufState
  | [] => st
  | e :: evs => bufRun batch (bufStep batch st e) evs

/-- Invariant of the buffer system: the buffered plus still-inflight
messages never exceed `2 * batch`, and the dispatched messages
followed by the buffer content are exactly the messages fetched so
far, in order (nothing dropped, nothing reordered). -/
def BufInv (batch : Nat) (st : BufState) : Prop :=
  st.buffer.length + st.inflight.length ≤ 2 * batch ∧
  st.dispatched ++ st.buffer = st.fetched

theorem bufStep_inv (batch : Nat) (st : BufState) (e : BufEvent)
    (h : BufInv batch st) : BufInv batch (bufStep batch st e) := by
  obtain ⟨buf, inf, dis, fet⟩ := st
  obtain ⟨h1, h2⟩ := h
  simp only [BufInv] at h1 h2
  cases e with
  | startFetch msgs =>
      by_cases hc : inf = [] ∧ buf.length < batch ∧ msgs.length ≤ batch
      · have hstep : bufStep batch ⟨buf, inf, dis, fet⟩ (.startFetch msgs) =
            ⟨buf, msgs, dis, fet⟩ := by
          simp only [bufStep, if_pos hc]
        rw [hstep]
        obtain ⟨hinf, hblen, hmlen⟩ := hc
        refine ⟨?_, h2⟩
        show buf.length + msgs.length ≤ 2 * batch
        omega
      · have hstep : bufStep batch ⟨buf, inf, dis, fet⟩ (.startFetch msgs) =
            ⟨buf, inf, dis, fet⟩ := by
          simp only [bufStep, if_neg hc]
        rw [hstep]
        exact ⟨h1, h2⟩
  | deliver =>
      cases inf with
      | nil => exact ⟨h1, h2⟩
      | cons m rest =>
          have hstep : bufStep batch ⟨buf, m :: rest, dis, fet⟩ .deliver =
              ⟨buf ++ [m], rest, dis, fet ++ [m]⟩ := rfl
          rw [hstep]
          refine ⟨?_, ?_⟩
          · show (buf ++ [m]).length + rest.length ≤ 2 * batch
            have h1a : buf.length + (rest.length + 1) ≤ 2 * batch := by
              simpa using h1
            simp only [List.length_append, List.length_cons, List.length_nil]
            omega
          · show dis ++ (buf ++ [m]) = fet ++ [m]
            rw [← List.append_assoc, h2]
  | dispatch =>
      cases buf with
      | nil => exact ⟨h1, h2⟩
      | cons m rest =>
          have hstep : bufStep batch ⟨m :: rest, inf, dis, fet⟩ .dispatch =
              ⟨rest, inf, dis ++ [m], fet⟩ := rfl
          rw [hstep]
          refine ⟨?_, ?_⟩
          · show rest.length + inf.length ≤ 2 * batch
            have h1a : rest.length + 1 + inf.length ≤ 2 * batch := by
              simpa using h1
            omega
          · show (dis ++ [m]) ++ rest = fet
            rw [List.append_assoc]
            simpa using h2

theorem bufRun_inv (batch : Nat) (evs : List BufEvent) :
    ∀ st : BufState, BufInv batch st → BufInv batch (bufRun batch st evs) := by
  induction evs with
  | nil => intro st h; exact h
  | cons e evs ih =>
      intro st h
      exact ih _ (bufStep_inv batch st e h)

/-- Claim C7: the pending buffer has capacity exactly `2 * batch`; the
fetch loop initiates a new fetch only while the buffer holds fewer
than `batch` messages; over any schedule from the empty start state
the fetched-but-undelivered messages (buffered plus inflight) never
exceed `2 * batch`; and no fetched message is dropped or reordered —
the dispatched messages followed by the remaining buffer are exactly
the fetched messages in order. -/
theorem C7_backpressure (batch : Nat) (evs : List BufEvent) :
    pendingCapacity batch = 2 * batch ∧
    (bufRun batch ⟨[], [], [], []⟩ evs).buffer.length +
      (bufRun batch ⟨[], [], [], []⟩ evs).inflight.length ≤ 2 * batch ∧
    (bufRun batch ⟨[], [], [], []⟩ evs).dispatched ++
      (bufRun batch ⟨[], [], [], []⟩ evs).buffer =
      (bufRun batch ⟨[], [], [], []⟩ evs).fetched ∧
    (∀ (st : BufState) (msgs : List Nat),
      bufStep batch st (.startFetch msgs) ≠ st → st.buffer.length < batch) := by
  have hinv : BufInv batch (bufRun batch ⟨[], [], [], []⟩ evs) :=
    bufRun_inv batch evs _ (by simp [BufInv])
  refine ⟨rfl, hinv.1, hinv.2, ?_⟩
  intro st msgs hne
  by_contra hge
  apply hne
  have hstep : bufStep batch st (.startFetch msgs) =
      if st.inflight = [] ∧ st.buffer.length < batch ∧ msgs.length ≤ batch then
        { st with inflight := msgs } else st := rfl
  rw [hstep, if_neg]
  intro hc
  exact hge hc.2.1

/-- The capacity of `Stream`'s error channel (consumer.go line 184:
`make(chan error, 1)`). -/
def streamErrChanCapacity : Nat := 1

/-- Whether a fetch error is a hard error: anything other than
`NoMessages` and timeout (the two the fetch loop absorbs silently,
consumer.go line 194). -/
def isHardErr (e : Err) : Bool := decide (¬(e = .noMessages ∨ e = .timeout))

/-- Status of `Stream`'s fetch loop after a step: still looping,
returned because the shared context was cancelled, or blocked on a
send to the full error channel. -/
inductive LoopStatus where
  | running
  | stopped
  | blocked
  deriving DecidableEq, Repr

/-- One iteration of `Stream`'s fetch loop (consumer.go lines
187-200): return when the context is done; otherwise fetch only when
the pending buffer holds fewer than `batch` messages; a `NoMessages`
or timeout result is absorbed; any other error is sent on the error
channel — the plain channel send succeeds only while the occupancy is
below the capacity and blocks the loop otherwise. -/
def fetchLoopIter (batch : Int) (ctxDone : Bool) (pendingLen : Nat)
    (fetchRes : Except Err Unit) (errChan : List Err) : LoopStatus × List Err :=
  if ctxDone then (.stopped, errChan)
  else if (pendingLen : Int) < batch then
    match fetchRes with
    | .ok _ => (.running, errChan)
    | .error e =>
        if isHardErr e then
          if errChan.length < streamErrChanCapacity then
            (.running, errChan ++ [e])
          else (.blocked, errChan)
        else (.running, errChan)
  else (.running, errChan)

/-- Run of the fetch loop over a list of iteration inputs (context
state, pending-buffer occupancy, fetch result); stops at the first
non-running status. -/
def fetchLoopRun (batch : Int) :
    List (Bool × Nat × Except Err Unit) → List Err → LoopStatus × List Err
  | [], ch => (.running, ch)
  | (d, plen, res) :: rest, ch =>
      match fetchLoopIter batch d plen res ch with
      | (.running, ch2) => fetchLoopRun batch rest ch2
      | (.stopped, ch2) => (.stopped, ch2)
      | (.blocked, ch2) => (.blocked, ch2)

/-- Number of hard fetch errors among the iteration inputs. -/
def hardCount : List (Bool × Nat × Except Err Unit) → Nat
  | [] => 0
  | (_, _, .error e) :: rest => (if isHardErr e then 1 else 0) + hardCount rest
  | (_, _, .ok _) :: rest => hardCount rest

/-- Number of iteration inputs observing a cancelled context. -/
def ctxDoneCount : List (Bool × Nat × Except Err Unit) → Nat
  | [] => 0
  | (d, _, _) :: rest => (if d then 1 else 0) + ctxDoneCount rest

theorem fetchLoopRun_noHard (batch : Int)
    (inputs : List (Bool × Nat × Except Err Unit))
    (h0 : hardCount inputs = 0) (h1 : ctxDoneCount inputs = 0) :
    ∀ ch : List Err, (fetchLoopRun batch inputs ch).1 = .running := by
  induction inputs with
  | nil => intro ch; rfl
  | cons i rest ih =>
      obtain ⟨d, plen, res⟩ := i
      cases d with
      | true => simp [ctxDoneCount] at h1
      | false =>
          intro ch
          have h1r : ctxDoneCount rest = 0 := by simpa [ctxDoneCount] using h1
          by_cases hp : (plen : Int) < batch
          · cases res with
            | ok u =>
                have h0r : hardCount rest = 0 := by simpa [hardCount] using h0
                simpa [fetchLoopRun, fetchLoopIter, hp] using ih h0r h1r ch
            | error e =>
                have he : isHardErr e = false := by
                  by_contra hh
                  have : isHardErr e = true := by
                    cases hhe : isHardErr e
                    · exact absurd hhe hh
                    · rfl
                  simp [hardCount, this] at h0
                have h0r : hardCount rest = 0 := by
                  simpa [hardCount, he] using h0
                simpa [fetchLoopRun, fetchLoopIter, hp, he] using ih h0r h1r ch
          · have h0r : hardCount rest = 0 := by
              cases res with
              | ok u => simpa [hardCount] using h0
              | error e =>
                  have := h0
                  simp [hardCount] at this
                  omega
            simpa [fetchLoopRun, fetchLoopIter, hp] using ih h0r h1r ch

theorem fetchLoopRun_singleHard (batch : Int)
    (inputs : List (Bool × Nat × Except Err Unit))
    (h0 : hardCount inputs ≤ 1) (h1 : ctxDoneCount inputs = 0) :
    (fetchLoopRun batch inputs []).1 = .running := by
  induction inputs with
  | nil => rfl
  | cons i rest ih =>
      obtain ⟨d, plen, res⟩ := i
      cases d with
      | true => simp [ctxDoneCount] at h1
      | false =>
          have h1r : ctxDoneCount rest = 0 := by simpa [ctxDoneCount] using h1
          by_cases hp : (plen : Int) < batch
          · cases res with
            | ok u =>
                have h0r : hardCount rest ≤ 1 := by simpa [hardCount] using h0
                simpa [fetchLoopRun, fetchLoopIter, hp] using ih h0r h1r
            | error e =>
                cases he : isHardErr e with
                | false =>
                    have h0r : hardCount rest ≤ 1 := by
                      simpa [hardCount, he] using h0
                    simpa [fetchLoopRun, fetchLoopIter, hp, he] using ih h0r h1r
                | true =>
                    have h0r : hardCount rest = 0 := by
                      simp [hardCount, he] at h0
                      omega
                    have := fetchLoopRun_noHard batch rest h0r h1r [e]
                    simpa [fetchLoopRun, fetchLoopIter, hp, he,
                      streamErrChanCapacity] using this
          · have h0r : hardCount rest ≤ 1 := by
              cases res with
              | ok u => simpa [hardCount] using h0
              | error e =>
                  simp [hardCount] at h0
                  omega
            simpa [fetchLoopRun, fetchLoopIter, hp] using ih h0r h1r

/-- Claim C9 counterexample: at a concrete live-context iteration with
the capacity-1 error channel already occupied, a hard fetch error is
not forwarded (the channel is unchanged) and the plain channel send
blocks the fetch loop even though the shared context has not been
cancelled. -/
theorem C9_nonblocking_cex :
    fetchLoopIter 100 false 0 (.error (.other 5)) [.other 9] =
      (.blocked, [.other 9]) := by decide

/-- Claim C9 (amended): the error channel has capacity 1; a hard fetch
error (anything but `NoMessages`/timeout) is forwarded to it and the
loop continues when the channel is free, but the plain send blocks
the loop while a previous error is still unconsumed; a run containing
at most one hard error and no cancellation keeps fetching (never
blocks, never stops). -/
theorem C9_error_forwarding (batch : Int)
    (inputs : List (Bool × Nat × Except Err Unit)) (p : Nat) (e : Err)
    (h0 : hardCount inputs ≤ 1) (h1 : ctxDoneCount inputs = 0)
    (h2 : isHardErr e = true) (h3 : (p : Int) < batch) :
    (fetchLoopRun batch inputs []).1 = .running ∧
    fetchLoopIter batch false p (.error e) [] = (.running, [e]) ∧
    fetchLoopIter batch false p (.error e) [e] = (.blocked, [e]) ∧
    streamErrChanCapacity = 1 := by
  refine ⟨fetchLoopRun_singleHard batch inputs h0 h1, ?_, ?_, rfl⟩
  · simp [fetchLoopIter, h3, h2, streamErrChanCapacity]
  · simp [fetchLoopIter, h3, h2, streamErrChanCapacity]

theorem C9_error_forwarding_witness :
    hardCount [(false, 0, .ok ()), (false, 0, .error (.other 7)),
      (false, 0, .error .noMessages)] ≤ 1 ∧
    ctxDoneCount [(false, 0, .ok ()), (false, 0, .error (.other 7)),
      (false, 0, .error .noMessages)] = 0 ∧
    isHardErr (.other 7) = true ∧
    ((0 : Nat) : Int) < 100 ∧
    ((fetchLoopRun 100 [(false, 0, .ok ()), (false, 0, .error (.other 7)),
      (false, 0, .error .noMessages)] []).1 = .running ∧
    fetchLoopIter 100 false 0 (.error (.other 7)) [] = (.running, [.other 7]) ∧
    fetchLoopIter 100 false 0 (.error (.other 7)) [.other 7] =
      (.blocked, [.other 7]) ∧
    streamErrChanCapacity = 1) :=
  ⟨by decide, by decide, by decide, by decide,
    C9_error_forwarding 100 _ 0 (.other 7) (by decide) (by decide) (by decide)
      (by decide)⟩

end Jsv2
